import Mathlib

/-!
Verification of the optools mesh-line library.

Shallow embedding of `optools/mesh/base.py`, `optools/mesh/uniform.py`,
`optools/mesh/adaptive.py` and `optools/utils/__init__.py`.

Modelling conventions:
* Python floats are modelled by `ℚ` (the claims are about exact arithmetic
  identities and inequalities, not floating-point rounding).
* A Python `ZeroDivisionError` (float or int division by zero) is modelled by
  `Option`: a getter that can raise returns `none` exactly when Python raises.
* `math.ceil` is `Int.ceil`; `np.linspace` is `linspace` below (numpy raises
  for a negative sample count, hence the `Option` in `points`).
* The `binding` mechanism of `paramobject` is not exercised by any claim:
  the meshes modelled here are unbound (`binding is None`), so `with_params`
  returns the fresh mesh itself.
-/

namespace Optools

/-- `clip` from `optools/utils/__init__.py`:
applies the minimum bound first (`max value minv`), then the maximum bound
(`min value maxv`); either bound may be absent. -/
def clip {α : Type} [LinearOrder α] (value : α) (minv maxv : Option α) : α :=
  let v1 := match minv with
    | some m => max value m
    | none => value
  match maxv with
  | some m => min v1 m
  | none => v1

/-- `np.linspace a b n`: `n` evenly spaced samples from `a` to `b`, both
endpoints included.  For `n = 1` numpy returns `[a]`; for `n = 0` the empty
list; otherwise sample `i` is `a + i * (b - a) / (n - 1)`. -/
def linspace (a b : ℚ) (n : ℕ) : List ℚ :=
  if n = 1 then [a]
  else (List.range n).map (fun (i : ℕ) => a + (i : ℚ) * (b - a) / ((n : ℚ) - 1))

/-- The three concrete uniform families of `optools/mesh/uniform.py`.
Each stores `start`, `stop` and its single owned parameter:
`DivisionUniformMeshLine` owns `division`, `DensityUniformMeshLine` owns
`density`, `ResolutionUniformMeshLine` owns `resolution`. -/
inductive UniformMeshLine : Type
  | DivisionUniformMeshLine (start stop : ℚ) (division : ℤ)
  | DensityUniformMeshLine (start stop : ℚ) (density : ℚ)
  | ResolutionUniformMeshLine (start stop : ℚ) (resolution : ℚ)
  deriving DecidableEq

namespace UniformMeshLine

/-- The `start` parameter (declared on `MeshLine` in `base.py`). -/
def start : UniformMeshLine → ℚ
  | DivisionUniformMeshLine s _ _ => s
  | DensityUniformMeshLine s _ _ => s
  | ResolutionUniformMeshLine s _ _ => s

/-- The `stop` parameter (declared on `MeshLine` in `base.py`). -/
def stop : UniformMeshLine → ℚ
  | DivisionUniformMeshLine _ e _ => e
  | DensityUniformMeshLine _ e _ => e
  | ResolutionUniformMeshLine _ e _ => e

/-- `MeshLine.length` from `base.py`: `abs(self.stop - self.start)`. -/
def length (m : UniformMeshLine) : ℚ := |m.stop - m.start|

/-- The `division` view.
`DivisionUniformMeshLine` returns its stored parameter;
`DensityUniformMeshLine.division` is `ceil(self.density * self.length + 1)`;
`ResolutionUniformMeshLine.division` is `ceil(self.length / self.resolution + 1)`
(raising `ZeroDivisionError` when `resolution == 0`). -/
def division : UniformMeshLine → Option ℤ
  | DivisionUniformMeshLine _ _ d => some d
  | DensityUniformMeshLine s e ρ =>
      some ⌈ρ * |e - s| + 1⌉
  | ResolutionUniformMeshLine s e r =>
      if r = 0 then none else some ⌈|e - s| / r + 1⌉

/-- The `density` view.
`DensityUniformMeshLine` returns its stored parameter; the other two families
compute `self.division / self.length` (raising `ZeroDivisionError` when
`length == 0`). -/
def density (m : UniformMeshLine) : Option ℚ :=
  match m with
  | DensityUniformMeshLine _ _ ρ => some ρ
  | _ => do
      let d ← m.division
      if m.length = 0 then none else some ((d : ℚ) / m.length)

/-- The `resolution` view.
`ResolutionUniformMeshLine` returns its stored parameter; the other two
families compute `self.length / self.division` (raising `ZeroDivisionError`
when `division == 0`). -/
def resolution (m : UniformMeshLine) : Option ℚ :=
  match m with
  | ResolutionUniformMeshLine _ _ r => some r
  | _ => do
      let d ← m.division
      if d = 0 then none else some (m.length / (d : ℚ))

/-- `UniformMeshLine.points`: `np.linspace(self.start, self.stop, self.division)`.
numpy raises when the sample count is negative. -/
def points (m : UniformMeshLine) : Option (List ℚ) := do
  let d ← m.division
  if d < 0 then none else some (linspace m.start m.stop d.toNat)

/-- `ConstantMeshLine.evaluate` from `constant.py`:
`x = self.points; return x, func(x)` with `func` vectorized over the points. -/
def evaluate (m : UniformMeshLine) (func : ℚ → ℚ) : Option (List ℚ × List ℚ) := do
  let x ← m.points
  some (x, x.map func)

/-- `UniformMeshLine.with_params`: fills in `start`/`stop` from `self` when not
overridden, then dispatches on the overridden keys — `division` beats
`density` beats `resolution`; with none of the three present, the same
concrete family is rebuilt keeping its owned parameter
(`self.__class__(self, **params)`). Parameters are passed positionally as the
optional dict entries `start, stop, division, density, resolution`. -/
def with_params (self : UniformMeshLine)
    (pstart pstop : Option ℚ) (pdivision : Option ℤ)
    (pdensity presolution : Option ℚ) : UniformMeshLine :=
  let s := pstart.getD self.start
  let e := pstop.getD self.stop
  match pdivision with
  | some d => DivisionUniformMeshLine s e d
  | none =>
    match pdensity with
    | some ρ => DensityUniformMeshLine s e ρ
    | none =>
      match presolution with
      | some r => ResolutionUniformMeshLine s e r
      | none =>
        match self with
        | DivisionUniformMeshLine _ _ d => DivisionUniformMeshLine s e d
        | DensityUniformMeshLine _ _ ρ => DensityUniformMeshLine s e ρ
        | ResolutionUniformMeshLine _ _ r => ResolutionUniformMeshLine s e r

/-- `UniformMeshLine.with_division`: when `division` is omitted the current
(possibly derived) `self.division` is used; the value is clamped with `clip`
and handed to `with_params`. `none` marks the derived view raising. -/
def with_division (self : UniformMeshLine)
    (division min_division max_division : Option ℤ) :
    Option UniformMeshLine := do
  let d ← match division with
    | some d => some d
    | none => self.division
  some (self.with_params none none (some (clip d min_division max_division)) none none)

/-- `UniformMeshLine.with_density`: same shape as `with_division` for the
`density` view. -/
def with_density (self : UniformMeshLine)
    (density min_density max_density : Option ℚ) :
    Option UniformMeshLine := do
  let ρ ← match density with
    | some ρ => some ρ
    | none => self.density
  some (self.with_params none none none (some (clip ρ min_density max_density)) none)

/-- `UniformMeshLine.with_resolution`: same shape as `with_division` for the
`resolution` view. -/
def with_resolution (self : UniformMeshLine)
    (resolution min_resolution max_resolution : Option ℚ) :
    Option UniformMeshLine := do
  let r ← match resolution with
    | some r => some r
    | none => self.resolution
  some (self.with_params none none none none (some (clip r min_resolution max_resolution)))

end UniformMeshLine

/-- The concrete family of a uniform mesh (its Python class). -/
inductive UniformFamily : Type
  | division
  | density
  | resolution
  deriving DecidableEq

/-- Classifies a `UniformMeshLine` by its concrete family. -/
def UniformMeshLine.family : UniformMeshLine → UniformFamily
  | .DivisionUniformMeshLine _ _ _ => .division
  | .DensityUniformMeshLine _ _ _ => .density
  | .ResolutionUniformMeshLine _ _ _ => .resolution

/-- Default of the `division` parameter declared on `AdaptiveMeshLine`. -/
def adaptiveDivisionDefault : ℤ := 1000

/-- Default of the `loss` parameter declared on `AdaptiveMeshLine`. -/
def adaptiveLossDefault : ℚ := 1 / 100

/-- The two concrete adaptive families of `optools/mesh/adaptive.py`.
Both parameters `division` (default 1000) and `loss` (default 0.01) are
declared on the abstract `AdaptiveMeshLine` and hence stored by both
subclasses; the constructors differ only in the stopping policy used by
`evaluate` (not modelled: it drives the external `adaptive` engine). -/
inductive AdaptiveMeshLine : Type
  | DivisionAdaptiveMeshLine (start stop : ℚ) (division : ℤ) (loss : ℚ)
  | LossAdaptiveMeshLine (start stop : ℚ) (division : ℤ) (loss : ℚ)
  deriving DecidableEq

namespace AdaptiveMeshLine

/-- The `start` parameter. -/
def start : AdaptiveMeshLine → ℚ
  | DivisionAdaptiveMeshLine s _ _ _ => s
  | LossAdaptiveMeshLine s _ _ _ => s

/-- The `stop` parameter. -/
def stop : AdaptiveMeshLine → ℚ
  | DivisionAdaptiveMeshLine _ e _ _ => e
  | LossAdaptiveMeshLine _ e _ _ => e

/-- The stored `division` parameter. -/
def division : AdaptiveMeshLine → ℤ
  | DivisionAdaptiveMeshLine _ _ d _ => d
  | LossAdaptiveMeshLine _ _ d _ => d

/-- The stored `loss` parameter. -/
def loss : AdaptiveMeshLine → ℚ
  | DivisionAdaptiveMeshLine _ _ _ l => l
  | LossAdaptiveMeshLine _ _ _ l => l

/-- `AdaptiveMeshLine.with_params`: fills in `start`/`stop` from `self` when
not overridden, then dispatches binarily — `division` present yields
`DivisionAdaptiveMeshLine(**params)` (its `loss` taken from the params or the
declared default), `loss` present yields `LossAdaptiveMeshLine(**params)`
(its `division` at the declared default), neither present rebuilds the same
concrete family keeping both stored values (`self.__class__(self, **params)`). -/
def with_params (self : AdaptiveMeshLine)
    (pstart pstop : Option ℚ) (pdivision : Option ℤ) (ploss : Option ℚ) :
    AdaptiveMeshLine :=
  let s := pstart.getD self.start
  let e := pstop.getD self.stop
  match pdivision with
  | some d => DivisionAdaptiveMeshLine s e d (ploss.getD adaptiveLossDefault)
  | none =>
    match ploss with
    | some l => LossAdaptiveMeshLine s e adaptiveDivisionDefault l
    | none =>
      match self with
      | DivisionAdaptiveMeshLine _ _ d l => DivisionAdaptiveMeshLine s e d l
      | LossAdaptiveMeshLine _ _ d l => LossAdaptiveMeshLine s e d l

/-- `AdaptiveMeshLine.with_division`: when `division` is omitted the stored
value is used; the value is clamped with `clip` and handed to `with_params`. -/
def with_division (self : AdaptiveMeshLine)
    (division min_division max_division : Option ℤ) : AdaptiveMeshLine :=
  self.with_params none none
    (some (clip (division.getD self.division) min_division max_division)) none

/-- `AdaptiveMeshLine.with_loss`: when `loss` is omitted the stored value is
used; the value is clamped with `clip` and handed to `with_params`. -/
def with_loss (self : AdaptiveMeshLine)
    (loss min_loss max_loss : Option ℚ) : AdaptiveMeshLine :=
  self.with_params none none none
    (some (clip (loss.getD self.loss) min_loss max_loss))

end AdaptiveMeshLine

/-- The concrete family of an adaptive mesh (its Python class). -/
inductive AdaptiveFamily : Type
  | division
  | loss
  deriving DecidableEq

/-- Classifies an `AdaptiveMeshLine` by its concrete family. -/
def AdaptiveMeshLine.family : AdaptiveMeshLine → AdaptiveFamily
  | .DivisionAdaptiveMeshLine _ _ _ _ => .division
  | .LossAdaptiveMeshLine _ _ _ _ => .loss

/-- `linspace a b n` always has `n` samples. -/
theorem linspace_length (a b : ℚ) (n : ℕ) : (linspace a b n).length = n := by
  unfold linspace
  split
  · simp [*]
  · simp

/-- Closed form of the samples of `linspace` for `n ≠ 1`. -/
theorem linspace_get (a b : ℚ) (n : ℕ) (hn : n ≠ 1) (i : ℕ)
    (h : i < (linspace a b n).length) :
    (linspace a b n)[i] = a + (i : ℚ) * (b - a) / ((n : ℚ) - 1) := by
  simp only [linspace, if_neg hn, List.getElem_map, List.getElem_range]

/-- A degenerate `linspace` over `[a, a]` is `n` copies of `a`. -/
theorem linspace_self (a : ℚ) (n : ℕ) : linspace a a n = List.replicate n a := by
  unfold linspace
  split
  · simp [*]
  · simp only [sub_self, mul_zero, zero_div, add_zero, zero_mul]
    rw [List.map_const']
    simp

end Optools

namespace Optools

open UniformMeshLine

/-- C1: for every `DensityUniformMeshLine` with positive length and positive
density `ρ`, the derived `division` equals `ceil(ρ * length + 1)` and the
achieved density `division / length` is at least `ρ` — the mesh never
under-samples relative to the requested minimum density. -/
theorem density_mesh_min_density (s e ρ : ℚ)
    (hL : 0 < (DensityUniformMeshLine s e ρ).length) (hρ : 0 < ρ) :
    (DensityUniformMeshLine s e ρ).division
      = some ⌈ρ * (DensityUniformMeshLine s e ρ).length + 1⌉ ∧
    ∀ d : ℤ, (DensityUniformMeshLine s e ρ).division = some d →
      ρ ≤ (d : ℚ) / (DensityUniformMeshLine s e ρ).length := by
  constructor
  · simp [division, length, stop, start]
  · intro d hd
    simp only [division, length, start, stop] at hd hL ⊢
    rw [Option.some_inj] at hd
    subst hd
    rw [le_div_iff₀ hL]
    have h1 := Int.le_ceil (ρ * |e - s| + 1)
    linarith

/-- Witness for C1 at `start = 0`, `stop = 1`, `density = 2`. -/
theorem density_mesh_min_density_witness :
    (0 < (DensityUniformMeshLine 0 1 2).length ∧ (0 : ℚ) < 2) ∧
    ((DensityUniformMeshLine 0 1 2).division
        = some ⌈(2 : ℚ) * (DensityUniformMeshLine 0 1 2).length + 1⌉ ∧
      ∀ d : ℤ, (DensityUniformMeshLine 0 1 2).division = some d →
        (2 : ℚ) ≤ (d : ℚ) / (DensityUniformMeshLine 0 1 2).length) :=
  ⟨⟨by norm_num [UniformMeshLine.length, UniformMeshLine.stop, UniformMeshLine.start],
    by norm_num⟩,
   density_mesh_min_density 0 1 2
     (by norm_num [UniformMeshLine.length, UniformMeshLine.stop, UniformMeshLine.start])
     (by norm_num)⟩

/-- C2: for every `ResolutionUniformMeshLine` with positive resolution `r`,
the derived `division` equals `ceil(length / r + 1)` and the achieved spacing
`length / division` is at most `r`. -/
theorem resolution_mesh_max_spacing (s e r : ℚ) (hr : 0 < r) :
    (ResolutionUniformMeshLine s e r).division
      = some ⌈(ResolutionUniformMeshLine s e r).length / r + 1⌉ ∧
    ∀ d : ℤ, (ResolutionUniformMeshLine s e r).division = some d →
      (ResolutionUniformMeshLine s e r).length / (d : ℚ) ≤ r := by
  constructor
  · simp [division, length, stop, start, hr.ne']
  · intro d hd
    simp only [division, length, start, stop, if_neg hr.ne'] at hd ⊢
    rw [Option.some_inj] at hd
    subst hd
    have hL : (0 : ℚ) ≤ |e - s| := abs_nonneg _
    have h1 := Int.le_ceil (|e - s| / r + 1)
    have h2 : (0 : ℚ) ≤ |e - s| / r := div_nonneg hL hr.le
    have h3 : (1 : ℚ) ≤ (⌈|e - s| / r + 1⌉ : ℚ) := by linarith
    rw [div_le_iff₀ (by linarith)]
    have h4 : r * (|e - s| / r) = |e - s| := by field_simp
    nlinarith

/-- Witness for C2 at `start = 5`, `stop = 10`, `resolution = 1/2`. -/
theorem resolution_mesh_max_spacing_witness :
    ((0 : ℚ) < 1 / 2) ∧
    ((ResolutionUniformMeshLine 5 10 (1 / 2)).division
        = some ⌈(ResolutionUniformMeshLine 5 10 (1 / 2)).length / (1 / 2) + 1⌉ ∧
      ∀ d : ℤ, (ResolutionUniformMeshLine 5 10 (1 / 2)).division = some d →
        (ResolutionUniformMeshLine 5 10 (1 / 2)).length / (d : ℚ) ≤ 1 / 2) :=
  ⟨by norm_num, resolution_mesh_max_spacing 5 10 (1 / 2) (by norm_num)⟩

/-- C3: `with_params` on every uniform-family mesh applies the
family-switching rule (`division` beats `density` beats `resolution`, with no
override of the three keeping the concrete family of `self`), the current
`start`/`stop` are passed through unless overridden, and `with_density x`
returns a `DensityUniformMeshLine` whose owned `density` equals `x`. -/
theorem with_params_family_switching :
    (∀ (m : UniformMeshLine) (ps pe : Option ℚ) (pd : Option ℤ) (pρ pr : Option ℚ),
      (m.with_params ps pe pd pρ pr).family =
        (match pd, pρ, pr with
         | some _, _, _ => UniformFamily.division
         | none, some _, _ => UniformFamily.density
         | none, none, some _ => UniformFamily.resolution
         | none, none, none => m.family) ∧
      (m.with_params ps pe pd pρ pr).start = ps.getD m.start ∧
      (m.with_params ps pe pd pρ pr).stop = pe.getD m.stop) ∧
    (∀ (m : UniformMeshLine) (x : ℚ),
      m.with_density (some x) none none
        = some (DensityUniformMeshLine m.start m.stop x)) := by
  constructor
  · intro m ps pe pd pρ pr
    rcases pd with _ | d <;> rcases pρ with _ | ρ <;> rcases pr with _ | r <;>
      cases m <;> simp [with_params, family, start, stop]
  · intro m x
    cases m <;> simp [with_density, with_params, clip, start, stop]

/-- C4: `clip` applies the minimum bound first and the maximum bound second
(so `min > max` deterministically yields the max bound), clamping with both
bounds absent is a no-op, a `with_division` call with the new value omitted
uses the current (possibly derived) `division`, and consequently
`with_division(min_division=M)` yields `max(division, M)` while
`with_division(max_division=M)` yields `min(division, M)`. -/
theorem wither_clamping_policy :
    (∀ v mn mx : ℤ, mx ≤ mn → clip v (some mn) (some mx) = mx) ∧
    (∀ v : ℤ, clip v none none = v) ∧
    (∀ (m : UniformMeshLine) (dv M : ℤ), m.division = some dv →
      ∃ m2, m.with_division none (some M) none = some m2 ∧
        m2.division = some (max dv M)) ∧
    (∀ (m : UniformMeshLine) (dv M : ℤ), m.division = some dv →
      ∃ m2, m.with_division none none (some M) = some m2 ∧
        m2.division = some (min dv M)) := by
  refine ⟨?_, ?_, ?_, ?_⟩
  · intro v mn mx h
    simp only [clip]
    omega
  · intro v
    rfl
  · intro m dv M h
    refine ⟨m.with_params none none (some (clip dv (some M) none)) none none, ?_, ?_⟩
    · simp [with_division, h]
    · cases m <;> simp [with_params, division, clip]
  · intro m dv M h
    refine ⟨m.with_params none none (some (clip dv none (some M))) none none, ?_, ?_⟩
    · simp [with_division, h]
    · cases m <;> simp [with_params, division, clip]

/-- Witness for C4: the min-bound clamp on a `DivisionUniformMeshLine`
with `division = 10` and `min_division = 100`. -/
theorem wither_clamping_policy_witness :
    (DivisionUniformMeshLine 5 10 10).division = some 10 ∧
    ∃ m2, (DivisionUniformMeshLine 5 10 10).with_division none (some 100) none = some m2 ∧
      m2.division = some (max 10 100) :=
  ⟨rfl, wither_clamping_policy.2.2.1 (DivisionUniformMeshLine 5 10 10) 10 100 rfl⟩

end Optools

namespace Optools

open UniformMeshLine

/-- C5 counterexample: `DivisionUniformMeshLine(start=5, stop=10, division=11)`
has `density = 11/5 = 2.2`, not `2.0`, and `resolution = 5/11 ≈ 0.4545`, not
`0.5` (the spec's `2.0`/`0.5` figures belong to `division = 10`). -/
theorem division_example_counterexample :
    (DivisionUniformMeshLine 5 10 11).density = some (11 / 5) ∧
    (11 : ℚ) / 5 ≠ 2 ∧
    (DivisionUniformMeshLine 5 10 11).resolution = some (5 / 11) ∧
    (5 : ℚ) / 11 ≠ 1 / 2 := by
  refine ⟨?_, by norm_num, ?_, by norm_num⟩
  · simp [density, division, length, start, stop]
    norm_num
  · simp [resolution, division, length, start, stop]
    norm_num

/-- C5 (amended): `DivisionUniformMeshLine(start=5, stop=10, division=11)` has
`points = linspace(5, 10, 11)` (the 11 values `5, 5.5, …, 10`),
`density = 11/5` and `resolution = 5/11`. -/
theorem division_example_views :
    (DivisionUniformMeshLine 5 10 11).points = some (linspace 5 10 11) ∧
    linspace 5 10 11
      = [5, 11/2, 6, 13/2, 7, 15/2, 8, 17/2, 9, 19/2, 10] ∧
    (DivisionUniformMeshLine 5 10 11).density = some (11 / 5) ∧
    (DivisionUniformMeshLine 5 10 11).resolution = some (5 / 11) := by
  refine ⟨rfl, ?_, ?_, ?_⟩
  · unfold linspace
    simp only [List.range_succ, List.map_append, List.map_cons, List.map_nil,
      List.range_zero, List.nil_append, List.cons_append]
    norm_num
  · simp [density, division, length, start, stop]
    norm_num
  · simp [resolution, division, length, start, stop]
    norm_num

/-- C6 counterexample: for `DivisionUniformMeshLine(start=0, stop=1, division=2)`
the single interval between the two points has size `1`, while the mesh's
`resolution` view is `length / division = 1/2` — the intervals have size
`length / (division - 1)`, not the `resolution` view. -/
theorem uniform_points_spacing_counterexample :
    (DivisionUniformMeshLine 0 1 2).points = some [0, 1] ∧
    (DivisionUniformMeshLine 0 1 2).resolution = some (1 / 2) ∧
    (1 : ℚ) - 0 ≠ 1 / 2 := by
  refine ⟨?_, ?_, by norm_num⟩
  · show some (linspace 0 1 (2 : ℤ).toNat) = _
    have h2 : (2 : ℤ).toNat = 2 := rfl
    rw [h2]
    unfold linspace
    norm_num [List.range_succ]
  · simp [resolution, division, length, start, stop]

/-- C6 (amended): for every uniform-family mesh whose `division` view computes
to `dv ≥ 2` over a positive length, `points` consists of `dv` values starting
at `start` and ending at `stop`, forming `dv - 1` equal-length intervals each
of size `length / (dv - 1)` (not the `resolution` view `length / dv`). -/
theorem uniform_points_evenly_spaced (m : UniformMeshLine) (dv : ℤ)
    (hdv : m.division = some dv) (h2 : 2 ≤ dv) (hL : 0 < m.length) :
    ∃ ps, m.points = some ps ∧ ps.length = dv.toNat ∧
      ps.head? = some m.start ∧ ps.getLast? = some m.stop ∧
      (∀ (i : ℕ) (h1 : i < ps.length) (hsucc : i + 1 < ps.length),
        |ps[i + 1] - ps[i]| = m.length / ((dv : ℚ) - 1)) := by
  have hnonneg : ¬ dv < 0 := by omega
  have hn1 : dv.toNat ≠ 1 := by omega
  have hlen : (linspace m.start m.stop dv.toNat).length = dv.toNat := linspace_length _ _ _
  refine ⟨linspace m.start m.stop dv.toNat, ?_, hlen, ?_, ?_, ?_⟩
  · rw [points, hdv]
    simp [hnonneg]
  · have h0 : 0 < (linspace m.start m.stop dv.toNat).length := by omega
    rw [List.head?_eq_getElem?, List.getElem?_eq_getElem h0,
      linspace_get _ _ _ hn1 0 h0]
    simp
  · have hb : dv.toNat - 1 < (linspace m.start m.stop dv.toNat).length := by omega
    rw [List.getLast?_eq_getElem?, hlen, List.getElem?_eq_getElem (by omega),
      linspace_get _ _ _ hn1 (dv.toNat - 1) (by omega)]
    have hcast : ((dv.toNat - 1 : ℕ) : ℚ) = (dv.toNat : ℚ) - 1 := by
      have h1 : 1 ≤ dv.toNat := by omega
      push_cast [h1]
      ring
    have hne : ((dv.toNat : ℚ) - 1) ≠ 0 := by
      have : (2 : ℚ) ≤ (dv.toNat : ℚ) := by exact_mod_cast (by omega : 2 ≤ dv.toNat)
      linarith
    rw [hcast, Option.some_inj]
    field_simp
  · intro i h1 hsucc
    rw [linspace_get _ _ _ hn1 i h1, linspace_get _ _ _ hn1 (i + 1) hsucc]
    have hne : (0 : ℚ) < (dv.toNat : ℚ) - 1 := by
      have : (2 : ℚ) ≤ (dv.toNat : ℚ) := by exact_mod_cast (by omega : 2 ≤ dv.toNat)
      linarith
    have hdq : ((dv.toNat : ℚ)) = (dv : ℚ) := by
      exact_mod_cast congrArg (fun z : ℤ => (z : ℚ)) (Int.toNat_of_nonneg (by omega))
    have step : m.start + ((i : ℚ) + 1) * (m.stop - m.start) / ((dv.toNat : ℚ) - 1)
        - (m.start + (i : ℚ) * (m.stop - m.start) / ((dv.toNat : ℚ) - 1))
        = (m.stop - m.start) / ((dv.toNat : ℚ) - 1) := by
      field_simp
      ring
    push_cast
    rw [step, abs_div, abs_of_pos hne, length, hdq]

/-- Witness for C6 (amended) at `DivisionUniformMeshLine(start=0, stop=1, division=3)`. -/
theorem uniform_points_evenly_spaced_witness :
    ((DivisionUniformMeshLine 0 1 3).division = some 3 ∧ (2 : ℤ) ≤ 3 ∧
      0 < (DivisionUniformMeshLine 0 1 3).length) ∧
    (∃ ps, (DivisionUniformMeshLine 0 1 3).points = some ps ∧
      ps.length = (3 : ℤ).toNat ∧
      ps.head? = some (DivisionUniformMeshLine 0 1 3).start ∧
      ps.getLast? = some (DivisionUniformMeshLine 0 1 3).stop ∧
      (∀ (i : ℕ) (h1 : i < ps.length) (hsucc : i + 1 < ps.length),
        |ps[i + 1] - ps[i]|
          = (DivisionUniformMeshLine 0 1 3).length / (((3 : ℤ) : ℚ) - 1))) :=
  ⟨⟨rfl, by decide,
    by norm_num [UniformMeshLine.length, UniformMeshLine.stop, UniformMeshLine.start]⟩,
   uniform_points_evenly_spaced (DivisionUniformMeshLine 0 1 3) 3 rfl (by decide)
     (by norm_num [UniformMeshLine.length, UniformMeshLine.stop, UniformMeshLine.start])⟩

end Optools

namespace Optools

open UniformMeshLine

/-- C7 counterexample: with `start == stop` the derived `division` of a
`DensityUniformMeshLine` and of a `ResolutionUniformMeshLine` does NOT raise a
division-by-zero error: both formulas succeed and return `ceil(1) = 1`,
because neither divides by `length`. -/
theorem degenerate_interval_division_counterexample :
    (DensityUniformMeshLine 5 5 8).division = some 1 ∧
    (ResolutionUniformMeshLine 5 5 (1 / 2)).division = some 1 := by
  constructor
  · norm_num [division]
  · norm_num [division]

/-- C7 (amended): with `start == stop` (so `length == 0`) the derived
`division` of a `DensityUniformMeshLine` is `ceil(ρ·0 + 1) = 1` and of a
`ResolutionUniformMeshLine` (for `resolution ≠ 0`) is `ceil(0/r + 1) = 1`;
the division-by-zero failure on a degenerate resolution-family interval occurs
in its derived `density` view (`division / length`), not in `division`. -/
theorem degenerate_interval_division_succeeds (s ρ r : ℚ) (hr : r ≠ 0) :
    (DensityUniformMeshLine s s ρ).division = some 1 ∧
    (ResolutionUniformMeshLine s s r).division = some 1 ∧
    (ResolutionUniformMeshLine s s r).density = none := by
  refine ⟨?_, ?_, ?_⟩
  · simp [division]
  · simp [division, hr]
  · simp [density, division, length, start, stop, hr]

/-- Witness for C7 (amended) at `start = stop = 5`, `density = 8`,
`resolution = 1/2`. -/
theorem degenerate_interval_division_succeeds_witness :
    ((1 : ℚ) / 2 ≠ 0) ∧
    ((DensityUniformMeshLine 5 5 8).division = some 1 ∧
      (ResolutionUniformMeshLine 5 5 (1 / 2)).division = some 1 ∧
      (ResolutionUniformMeshLine 5 5 (1 / 2)).density = none) :=
  ⟨by norm_num, degenerate_interval_division_succeeds 5 8 (1 / 2) (by norm_num)⟩

/-- C8: overriding the `division` view with the mesh's own current `division`
value round-trips: the resulting mesh's `division` equals the original one,
for every uniform family (also when `division` is a derived view). -/
theorem with_division_roundtrip (m : UniformMeshLine) (dv : ℤ)
    (h : m.division = some dv) :
    ∃ m2, m.with_division (some dv) none none = some m2 ∧ m2.division = some dv := by
  refine ⟨DivisionUniformMeshLine m.start m.stop dv, ?_, rfl⟩
  cases m <;> simp [with_division, with_params, clip, start, stop]

/-- Witness for C8 on a `DensityUniformMeshLine` whose `division` view is the
derived value `3`. -/
theorem with_division_roundtrip_witness :
    (DensityUniformMeshLine 0 1 2).division = some 3 ∧
    ∃ m2, (DensityUniformMeshLine 0 1 2).with_division (some 3) none none = some m2 ∧
      m2.division = some 3 :=
  ⟨by norm_num [UniformMeshLine.division], with_division_roundtrip (DensityUniformMeshLine 0 1 2) 3
    (by norm_num [UniformMeshLine.division])⟩

/-- C9: the adaptive withers switch family binarily — `with_division` always
yields a `DivisionAdaptiveMeshLine` carrying the clamped supplied value (its
`loss` at the declared default), `with_loss` always yields a
`LossAdaptiveMeshLine` carrying the clamped supplied value; the concrete
example `LossAdaptiveMeshLine(start=-1, stop=1, loss=0.01).with_division(1000)`
is a `DivisionAdaptiveMeshLine` with `division == 1000`; and `with_params`
with neither `division` nor `loss` preserves the concrete family and the
stored parameter values. -/
theorem adaptive_family_switching :
    (∀ (m : AdaptiveMeshLine) (d : ℤ) (mn mx : Option ℤ),
      m.with_division (some d) mn mx
        = AdaptiveMeshLine.DivisionAdaptiveMeshLine m.start m.stop
            (clip d mn mx) adaptiveLossDefault) ∧
    (∀ (m : AdaptiveMeshLine) (l : ℚ) (mn mx : Option ℚ),
      m.with_loss (some l) mn mx
        = AdaptiveMeshLine.LossAdaptiveMeshLine m.start m.stop
            adaptiveDivisionDefault (clip l mn mx)) ∧
    ((AdaptiveMeshLine.LossAdaptiveMeshLine (-1) 1 adaptiveDivisionDefault
        (1 / 100)).with_division (some 1000) none none
      = AdaptiveMeshLine.DivisionAdaptiveMeshLine (-1) 1 1000 (1 / 100) ∧
     ((AdaptiveMeshLine.LossAdaptiveMeshLine (-1) 1 adaptiveDivisionDefault
        (1 / 100)).with_division (some 1000) none none).division = 1000) ∧
    (∀ (m : AdaptiveMeshLine) (ps pe : Option ℚ),
      (m.with_params ps pe none none).family = m.family ∧
      (m.with_params ps pe none none).division = m.division ∧
      (m.with_params ps pe none none).loss = m.loss) := by
  refine ⟨?_, ?_, ⟨?_, ?_⟩, ?_⟩
  · intro m d mn mx
    cases m <;> rfl
  · intro m l mn mx
    cases m <;> rfl
  · rfl
  · rfl
  · intro m ps pe
    cases m <;> exact ⟨rfl, rfl, rfl⟩

/-- C10 counterexample: for `DivisionUniformMeshLine(start=5, stop=5, division=11)`
the derived `resolution` view does NOT fail: `length / division = 0 / 11`
succeeds and returns `0` (only the `density` view divides by the zero length). -/
theorem degenerate_division_mesh_counterexample :
    (DivisionUniformMeshLine 5 5 11).resolution = some 0 := by
  simp [resolution, division, length, start, stop]

/-- C10 (amended): for every `DivisionUniformMeshLine` with `start == stop`
and `division > 0`, `points` and `evaluate` succeed (`points` is `division`
copies of `start`), the derived `density` view fails with division-by-zero
(`length == 0`), and the derived `resolution` view succeeds returning
`0 / division = 0`. -/
theorem degenerate_division_mesh_views (s : ℚ) (d : ℤ) (hd : 0 < d) (f : ℚ → ℚ) :
    (DivisionUniformMeshLine s s d).points = some (List.replicate d.toNat s) ∧
    (DivisionUniformMeshLine s s d).evaluate f
      = some (List.replicate d.toNat s, List.replicate d.toNat (f s)) ∧
    (DivisionUniformMeshLine s s d).density = none ∧
    (DivisionUniformMeshLine s s d).resolution = some 0 := by
  have hp : (DivisionUniformMeshLine s s d).points = some (List.replicate d.toNat s) := by
    show (if d < 0 then none else some (linspace s s d.toNat)) = _
    rw [if_neg (by omega), linspace_self]
  refine ⟨hp, ?_, ?_, ?_⟩
  · rw [evaluate, hp]
    simp [List.map_replicate]
  · simp [density, division, length, start, stop]
  · simp [resolution, division, length, start, stop, hd.ne']

/-- Witness for C10 (amended) at `start = stop = 5`, `division = 11`,
`func x = x * x`. -/
theorem degenerate_division_mesh_views_witness :
    ((0 : ℤ) < 11) ∧
    ((DivisionUniformMeshLine 5 5 11).points
        = some (List.replicate (11 : ℤ).toNat 5) ∧
      (DivisionUniformMeshLine 5 5 11).evaluate (fun x : ℚ => x * x)
        = some (List.replicate (11 : ℤ).toNat 5,
            List.replicate (11 : ℤ).toNat ((fun x : ℚ => x * x) 5)) ∧
      (DivisionUniformMeshLine 5 5 11).density = none ∧
      (DivisionUniformMeshLine 5 5 11).resolution = some 0) :=
  ⟨by decide, degenerate_division_mesh_views 5 11 (by decide) (fun x : ℚ => x * x)⟩

end Optools
